import Mathlib

/-!
Verification development for `pkg/helpers/struct.go` of
elastic-agent-shipper-client: the converter between general-purpose Go
values (`interface ...`) and the protobuf-style tagged-union `messages.Value`.

The Go source is embedded shallowly:

* Go strings and byte slices become `GoString := List Nat` (their bytes).
* `float64` becomes `GoFloat`, a symbolic carrier distinguishing NaN,
  positive infinity, negative infinity and finite values (the code only
  branches on those classes and otherwise passes floats through unchanged;
  no floating-point arithmetic occurs in the source).
* The tagged union `messages.Value` becomes the inductive `Value`.  The
  `Kind` field being a nil interface, or the variant wrapper pointer being
  nil, are collapsed into the single constructor `Value.unset`: the only
  reader of `Kind` in the source (`AsInterface`) returns Go `nil` for both.
  The inner pointers of the Timestamp/Struct/List variants become `Option`.
* The dynamic input of `NewValue` becomes the inductive `Dyn`, one
  constructor per runtime shape the source's `reflect` dispatch
  distinguishes.
* Fallible Go functions returning `(ptr, error)` become `Res`, with a
  third constructor `panicked` for Go run-time panics (every error return
  in the source returns a nil pointer alongside the error, so the error
  constructor carries no value).
-/

set_option autoImplicit false

/-- A Go string or `[]byte`: a finite sequence of bytes. -/
abbrev GoString := List Nat

/-- Whether a byte is a UTF-8 continuation byte (0x80..0xBF). -/
def isCont (b : Nat) : Bool := decide (0x80 ≤ b) && decide (b ≤ 0xBF)

/-- Go `unicode/utf8.ValidString` on the string's bytes: RFC 3629 UTF-8
(no overlong forms, no surrogates, max U+10FFFF). -/
def utf8Valid : GoString → Bool
  | [] => true
  | b :: rest =>
    if b ≤ 0x7F then utf8Valid rest
    else if b < 0xC2 then false
    else if b ≤ 0xDF then
      match rest with
      | b1 :: r => isCont b1 && utf8Valid r
      | [] => false
    else if b ≤ 0xEF then
      match rest with
      | b1 :: b2 :: r =>
          (if b == 0xE0 then decide (0xA0 ≤ b1) && decide (b1 ≤ 0xBF)
           else if b == 0xED then decide (0x80 ≤ b1) && decide (b1 ≤ 0x9F)
           else isCont b1) && isCont b2 && utf8Valid r
      | _ => false
    else if b ≤ 0xF4 then
      match rest with
      | b1 :: b2 :: b3 :: r =>
          (if b == 0xF0 then decide (0x90 ≤ b1) && decide (b1 ≤ 0xBF)
           else if b == 0xF4 then decide (0x80 ≤ b1) && decide (b1 ≤ 0x8F)
           else isCont b1) && isCont b2 && isCont b3 && utf8Valid r
      | _ => false
    else false

/-- ASCII code of the standard base64 alphabet character for a 6-bit index:
A..Z, a..z, 0..9, plus, slash. -/
def b64c (i : Nat) : Nat :=
  if i < 26 then 65 + i
  else if i < 52 then 97 + (i - 26)
  else if i < 62 then 48 + (i - 52)
  else if i = 62 then 43
  else 47

/-- Go `base64.StdEncoding.EncodeToString`: three input bytes become four
alphabet characters; a final group of one or two bytes is padded with
`=` (byte 61). -/
def base64StdEncode : List Nat → GoString
  | [] => []
  | [a] => [b64c (a / 4), b64c (a % 4 * 16), 61, 61]
  | [a, b] => [b64c (a / 4), b64c (a % 4 * 16 + b / 16), b64c (b % 16 * 4), 61]
  | a :: b :: c :: rest =>
      b64c (a / 4) :: b64c (a % 4 * 16 + b / 16) :: b64c (b % 16 * 4 + c / 64)
        :: b64c (c % 64) :: base64StdEncode rest

/-- Model of a Go `float64`.  The source never computes with floats: it only
classifies them (`math.IsNaN`, `math.IsInf`) and passes them through, so
finite values are carried symbolically as rationals.  The precision loss of
Go's int-to-float64 conversion is not modelled (no claim depends on the
numeric value of a converted integer). -/
inductive GoFloat where
  | finite (q : ℚ)
  | nan
  | inf
  | negInf
deriving DecidableEq, Repr

/-- Go `float64(n)` for a signed integer `n` (see `GoFloat` on precision). -/
def floatOfInt (n : Int) : GoFloat := .finite (n : ℚ)

/-- Go `float64(n)` for an unsigned integer `n` (see `GoFloat` on precision). -/
def floatOfNat (n : Nat) : GoFloat := .finite (n : ℚ)

/-- Model of a Go `time.Time` instant: Unix seconds and the nanosecond
within the second (location and monotonic reading are dropped, as
`timestamppb.New` and `AsTime().UTC()` do). -/
structure GoTime where
  sec : Int
  ns : Int
deriving DecidableEq, Repr

/-- The `messages.Timestamp` protobuf message: seconds and nanos fields. -/
structure TimestampMsg where
  seconds : Int
  nanos : Int
deriving DecidableEq, Repr

/-- The tagged union `messages.Value` together with the `messages.Struct`
and `messages.ListValue` containers it holds.

`unset` models every configuration for which `GetKind()` yields nothing the
decoder's type switch uses: a nil `*Value`, a nil `Kind` interface, or a
variant wrapper pointer that is itself nil (all of them make `AsInterface`
return Go `nil`).  A `messages.Struct` is its `Data` map, modelled as an
association list of Go string key and `Value`; a `messages.ListValue` is its
`Values` slice.  The `Option` on the Timestamp/Struct/List payloads models
the inner pointer of the variant wrapper, which may be nil. -/
inductive Value where
  | unset
  | nullValue
  | numberValue (n : GoFloat)
  | stringValue (s : GoString)
  | boolValue (b : Bool)
  | timestampValue (t : Option TimestampMsg)
  | structValue (data : Option (List (GoString × Value)))
  | listValue (values : Option (List Value))

/-- The `Data` field of a `messages.Struct`. -/
abbrev StructData := List (GoString × Value)

/-- The `Values` field of a `messages.ListValue`. -/
abbrev ListData := List Value

/-- The errors the source constructs (via `protoimpl.X.NewError` and
`fmt.Errorf`), kept structurally. -/
inductive GoErr where
  /-- protoimpl: invalid UTF-8 in string, carrying the offending string. -/
  | invalidUTF8 (s : GoString)
  /-- protoimpl: invalid type, carrying the Go runtime type name. -/
  | invalidType (typeName : String)
  /-- fmt.Errorf wrapping a mapstructure.Decode failure. -/
  | structDecode (cause : String)
  /-- protoimpl: could not convert value to struct, wrapping the cause. -/
  | structWrap (e : GoErr)
deriving DecidableEq, Repr

/-- Outcome of a fallible Go call.  Every error return in the source is
`return nil, err`, so `err` carries no value; `panicked` models a Go
run-time panic unwinding out of the call. -/
inductive Res (α : Type) where
  | ok (a : α)
  | err (e : GoErr)
  | panicked (msg : String)

/-- Whether a `Res` is a successful return. -/
def Res.isOk {α : Type} : Res α → Bool
  | .ok _ => true
  | _ => false

/-- Go panic message for a failed direct type assertion such as `v.(int)`
on a defined (named) type (text abridged; the Go message names the two
types). -/
def assertPanicMsg : String := "interface conversion"

/-- Go panic message of `reflect.Value.Field` called on a slice value. -/
def fieldOnSlicePanicMsg : String := "reflect: call of reflect.Value.Field on slice Value"

/-- `NewNullValue` constructs a new null Value. -/
def NewNullValue : Value := .nullValue

/-- `NewBoolValue` constructs a new boolean Value. -/
def NewBoolValue (v : Bool) : Value := .boolValue v

/-- `NewNumberValue` constructs a new number Value. -/
def NewNumberValue (v : GoFloat) : Value := .numberValue v

/-- `NewStringValue` constructs a new string Value. -/
def NewStringValue (v : GoString) : Value := .stringValue v

/-- `NewTimestampValue` constructs a new Timestamp Value via
`timestamppb.New`: Unix seconds and in-second nanoseconds. -/
def NewTimestampValue (v : GoTime) : Value := .timestampValue (some ⟨v.sec, v.ns⟩)

/-- `NewStructValue` constructs a new struct Value (the argument models the
`*messages.Struct` pointer). -/
def NewStructValue (v : Option StructData) : Value := .structValue v

/-- `NewListValue` constructs a new list Value (the argument models the
`*messages.ListValue` pointer). -/
def NewListValue (v : Option ListData) : Value := .listValue v

/-- The reflect Kinds on which `NewValue` performs a direct type assertion
to the predeclared Go type (`v.(bool)`, `v.(int)`, ..., `v.(string)`). -/
inductive ScalarKind where
  | bool | int | int32 | int64 | uint | uint32 | uint64 | float32 | float64 | string
deriving DecidableEq, Repr

/-- The dynamic (`interface`-typed) input of `NewValue`, one constructor per
runtime shape the source's dispatch distinguishes.

* `str` is a predeclared `string`; `bytes` a `[]byte`; `time` a `time.Time`.
* `structOk fields` / `structErr cause` model a Go struct (reflect Kind
  Struct, not `time.Time`) whose `mapstructure.Decode` flattening succeeds
  with the given field map, respectively fails with the given message
  (mapstructure is an external collaborator; its outcome is carried in the
  value).
* `map` models a map whose keys are strings (`map[string]interface ...` is
  asserted directly; other string-keyed map types reach the same entries by
  reflection).  Iteration order of the Go map is modelled as list order.
* `mapIntKey` models a map with `int` keys, taking the reflection path in
  which every key is coerced by `reflect.Value.String()`.
* `slice` is a non-`[]byte` slice (such as `[]interface ...`), its elements
  further dynamic values.
* `namedScalar k` is a value of a defined (named) type whose underlying
  reflect Kind is `k` but whose dynamic type is not the predeclared one,
  e.g. `type MyInt int`: the branch's direct type assertion fails and
  panics, so no payload is needed.
* `other typeName` is a value of any runtime kind the switch does not
  cover (chan, func, int8, uint16, ...), hitting the default branch. -/
inductive Dyn where
  | null
  | bool (b : Bool)
  | int (n : Int)
  | int32 (n : Int)
  | int64 (n : Int)
  | uint (n : Nat)
  | uint32 (n : Nat)
  | uint64 (n : Nat)
  | float32 (x : GoFloat)
  | float64 (x : GoFloat)
  | str (s : GoString)
  | bytes (bs : List Nat)
  | time (t : GoTime)
  | structOk (fields : List (GoString × Dyn))
  | structErr (cause : String)
  | map (entries : List (GoString × Dyn))
  | mapIntKey (entries : List (Int × Dyn))
  | slice (xs : List Dyn)
  | namedScalar (k : ScalarKind)
  | other (typeName : String)

/-- The Go string `reflect.Value.String()` returns for any key of Kind
`int`: the fixed text of "<int Value>" (byte 60 is the less-than sign,
byte 62 the greater-than sign). -/
def intValueKeyStr : GoString := [60, 105, 110, 116, 32, 86, 97, 108, 117, 101, 62]

mutual

/-- `NewValue` constructs a Value from a general-purpose Go interface value.

Branches follow the source's `reflect.TypeOf(v).Kind()` switch.  A defined
(named) scalar type panics on the failed type assertion.  The struct branch
that survives `mapstructure.Decode` re-enters `NewValue` on the produced
`map[string]interface` value; that recursive call necessarily takes the Map
branch with a successful direct assertion, which is inlined here (same for
the two map shapes): on an entry failure the error is wrapped as could not
convert value to struct.  The slice branch's error path evaluates
`refVal.Field(i)` — `reflect.Value.Field` on a slice value — while building
its error message, which panics, so a failing slice element yields a panic,
never an error return. -/
def NewValue : Dyn → Res Value
  | .null => .ok NewNullValue
  | .bool b => .ok (NewBoolValue b)
  | .int n => .ok (NewNumberValue (floatOfInt n))
  | .int32 n => .ok (NewNumberValue (floatOfInt n))
  | .int64 n => .ok (NewNumberValue (floatOfInt n))
  | .uint n => .ok (NewNumberValue (floatOfNat n))
  | .uint32 n => .ok (NewNumberValue (floatOfNat n))
  | .uint64 n => .ok (NewNumberValue (floatOfNat n))
  | .float32 x => .ok (NewNumberValue x)
  | .float64 x => .ok (NewNumberValue x)
  | .str s =>
      if utf8Valid s then .ok (NewStringValue s) else .err (.invalidUTF8 s)
  | .bytes bs => .ok (NewStringValue (base64StdEncode bs))
  | .time t => .ok (NewTimestampValue t)
  | .structOk fields =>
      match newStructEntries fields with
      | .ok data => .ok (NewStructValue (some data))
      | .err e => .err (.structWrap e)
      | .panicked m => .panicked m
  | .structErr cause => .err (.structDecode cause)
  | .map entries =>
      match newStructEntries entries with
      | .ok data => .ok (NewStructValue (some data))
      | .err e => .err (.structWrap e)
      | .panicked m => .panicked m
  | .mapIntKey entries =>
      match encodeIntMapEntries entries with
      | .ok data => .ok (NewStructValue (some data))
      | .err e => .err (.structWrap e)
      | .panicked m => .panicked m
  | .slice xs =>
      match newListElems xs with
      | .ok vs => .ok (NewListValue (some vs))
      | .err e => .err e
      | .panicked m => .panicked m
  | .namedScalar _ => .panicked assertPanicMsg
  | .other typeName => .err (.invalidType typeName)

/-- The loop of `NewStruct` over the map's entries: each key must be valid
UTF-8, each value is converted by `NewValue`; the first failure aborts. -/
def newStructEntries : List (GoString × Dyn) → Res StructData
  | [] => .ok []
  | (k, v) :: rest =>
      if utf8Valid k then
        match NewValue v with
        | .ok w =>
            match newStructEntries rest with
            | .ok ds => .ok ((k, w) :: ds)
            | .err e => .err e
            | .panicked m => .panicked m
        | .err e => .err e
        | .panicked m => .panicked m
      else .err (.invalidUTF8 k)

/-- The Map branch's reflection loop for an int-keyed map followed by
`NewStruct` on the rebuilt `map[string]interface` value.  Every key coerces
to the same string `intValueKeyStr`, so the rebuilt map holds at most one
entry, the one written last (list order models the Go map's iteration
order); `NewStruct` then validates that key and converts that value. -/
def encodeIntMapEntries : List (Int × Dyn) → Res StructData
  | [] => .ok []
  | (_, v) :: rest =>
      match rest with
      | [] =>
          if utf8Valid intValueKeyStr then
            match NewValue v with
            | .ok w => .ok [(intValueKeyStr, w)]
            | .err e => .err e
            | .panicked m => .panicked m
          else .err (.invalidUTF8 intValueKeyStr)
      | _ :: _ => encodeIntMapEntries rest

/-- The slice branch's loop: each element converted by `NewValue` at its
index; on an element failure the error-message construction calls
`reflect.Value.Field` on the slice and panics (see `NewValue`). -/
def newListElems : List Dyn → Res ListData
  | [] => .ok []
  | x :: rest =>
      match NewValue x with
      | .ok w =>
          match newListElems rest with
          | .ok vs => .ok (w :: vs)
          | .err e => .err e
          | .panicked m => .panicked m
      | .err _ => .panicked fieldOnSlicePanicMsg
      | .panicked m => .panicked m

end

/-- `NewStruct` constructs a Struct from a general-purpose Go map (the map
modelled as an association list in iteration order).  On success the result
is the struct's `Data`; errors are returned unwrapped. -/
def NewStruct (v : List (GoString × Dyn)) : Res StructData := newStructEntries v

/-- `NewList` constructs a ListValue from a general-purpose Go slice.  The
slice elements are converted using `NewValue`; unlike the slice branch of
`NewValue`, an element error is returned as-is (no `Field` call, no
panic, no index context). -/
def NewList : List Dyn → Res ListData
  | [] => .ok []
  | x :: rest =>
      match NewValue x with
      | .ok w =>
          match NewList rest with
          | .ok vs => .ok (w :: vs)
          | .err e => .err e
          | .panicked m => .panicked m
      | .err e => .err e
      | .panicked m => .panicked m

/-- The bytes of the text "NaN". -/
def nanStr : GoString := [78, 97, 78]

/-- The bytes of the text "Infinity". -/
def infStr : GoString := [73, 110, 102, 105, 110, 105, 116, 121]

/-- The bytes of the text "-Infinity" (byte 45 is the minus sign). -/
def negInfStr : GoString := 45 :: infStr

mutual

/-- `AsInterface` converts a Value to a general-purpose Go interface value.

The source's type switch has no case for the Null variant, so both the
Null variant and every unset/nil configuration fall through to `return
nil`, here `Dyn.null`.  A NaN / positive-infinity / negative-infinity
number is returned as its text sentinel.  A Timestamp variant holding a nil
inner pointer yields `AsTime` of the zero message — the Unix epoch — and a
Struct or List variant holding a nil inner pointer yields the freshly
allocated empty map or slice of `AsMap` / `AsSlice`, none of which is Go
`nil`. -/
def AsInterface : Value → Dyn
  | .unset => .null
  | .nullValue => .null
  | .numberValue n =>
      match n with
      | .nan => .str nanStr
      | .inf => .str infStr
      | .negInf => .str negInfStr
      | .finite q => .float64 (.finite q)
  | .stringValue s => .str s
  | .boolValue b => .bool b
  | .timestampValue none => .time ⟨0, 0⟩
  | .timestampValue (some t) => .time ⟨t.seconds, t.nanos⟩
  | .structValue none => .map []
  | .structValue (some data) => .map (asMapEntries data)
  | .listValue none => .slice []
  | .listValue (some vs) => .slice (asSliceElems vs)

/-- The loop of `AsMap`: each value converted by `AsInterface`. -/
def asMapEntries : List (GoString × Value) → List (GoString × Dyn)
  | [] => []
  | (k, w) :: rest => (k, AsInterface w) :: asMapEntries rest

/-- The loop of `AsSlice`: each element converted by `AsInterface`. -/
def asSliceElems : List Value → List Dyn
  | [] => []
  | w :: rest => AsInterface w :: asSliceElems rest

end

/-- `AsMap` converts a `*messages.Struct` to a general-purpose Go map; a nil
pointer yields the freshly allocated empty map. -/
def AsMap : Option StructData → List (GoString × Dyn)
  | none => []
  | some data => asMapEntries data

/-- `AsSlice` converts a `*messages.ListValue` to a general-purpose Go
slice; a nil pointer yields the freshly allocated empty slice. -/
def AsSlice : Option ListData → List Dyn
  | none => []
  | some vs => asSliceElems vs

/-- The scalar dynamic values ranged over by the round-trip property:
null, predeclared bool, predeclared float64, and valid-UTF-8 predeclared
string. -/
def simpleScalar : Dyn → Bool
  | .null => true
  | .bool _ => true
  | .float64 _ => true
  | .str s => utf8Valid s
  | _ => false

/-- The Value produced by a successful `NewValue` (unset when encoding does
not succeed; used only under a success hypothesis). -/
def encValue (d : Dyn) : Value :=
  match NewValue d with
  | .ok w => w
  | _ => .unset

/-- Decode of the encode of `d` (meaningful under a success hypothesis). -/
def encDecoded (d : Dyn) : Dyn := AsInterface (encValue d)

mutual

/-- Inputs whose encoding certainly succeeds: every string and struct/map
key valid UTF-8, no mapstructure failure, no unsupported kind, no defined
named scalar type.  For an int-keyed map only the entry written last into
the rebuilt map is ever encoded, so only it is constrained. -/
def allOkB : Dyn → Bool
  | .str s => utf8Valid s
  | .structOk fields => allOkEntriesB fields
  | .structErr _ => false
  | .map entries => allOkEntriesB entries
  | .mapIntKey entries => allOkIntEntriesB entries
  | .slice xs => allOkListB xs
  | .namedScalar _ => false
  | .other _ => false
  | _ => true

/-- `allOkB` over a string-keyed map's entries. -/
def allOkEntriesB : List (GoString × Dyn) → Bool
  | [] => true
  | (k, v) :: rest => utf8Valid k && allOkB v && allOkEntriesB rest

/-- `allOkB` over an int-keyed map's entries (only the last matters). -/
def allOkIntEntriesB : List (Int × Dyn) → Bool
  | [] => true
  | (_, v) :: rest =>
      match rest with
      | [] => allOkB v
      | _ :: _ => allOkIntEntriesB rest

/-- `allOkB` over a slice's elements. -/
def allOkListB : List Dyn → Bool
  | [] => true
  | x :: rest => allOkB x && allOkListB rest

end

mutual

/-- Inputs on which encoding does not panic: no defined named scalar type
anywhere that gets encoded, and inside every slice only elements whose
encoding fully succeeds (a failing slice element panics in the source's
error path). -/
def noPanicB : Dyn → Bool
  | .structOk fields => noPanicEntriesB fields
  | .map entries => noPanicEntriesB entries
  | .mapIntKey entries => noPanicIntEntriesB entries
  | .slice xs => allOkListB xs
  | .namedScalar _ => false
  | _ => true

/-- `noPanicB` over a string-keyed map's entries (keys may be invalid:
that is an error return, not a panic). -/
def noPanicEntriesB : List (GoString × Dyn) → Bool
  | [] => true
  | (_, v) :: rest => noPanicB v && noPanicEntriesB rest

/-- `noPanicB` over an int-keyed map's entries (only the last matters). -/
def noPanicIntEntriesB : List (Int × Dyn) → Bool
  | [] => true
  | (_, v) :: rest =>
      match rest with
      | [] => noPanicB v
      | _ :: _ => noPanicIntEntriesB rest

end

/-- The Go runtime type name of a predeclared int8 value (a kind the
dispatch switch does not cover). -/
def int8TypeName : String := "int8"

/-- The Go runtime type name of a channel value (a kind the dispatch
switch does not cover). -/
def chanTypeName : String := "chan int"

theorem utf8Valid_intValueKeyStr : utf8Valid intValueKeyStr = true := by decide

theorem encValue_eq {d : Dyn} {w : Value} (h : NewValue d = .ok w) : encValue d = w := by
  simp [encValue, h]

theorem asSliceElems_eq_map : (l : List Value) → asSliceElems l = l.map AsInterface
  | [] => rfl
  | w :: rest => by simp [asSliceElems, asSliceElems_eq_map rest]

theorem newListElems_all_ok : (xs : List Dyn) → (∀ x ∈ xs, ∃ w, NewValue x = .ok w) →
    newListElems xs = .ok (xs.map encValue)
  | [], _ => rfl
  | x :: rest, h => by
      obtain ⟨w, hw⟩ := h x (List.mem_cons_self x rest)
      have hrest := newListElems_all_ok rest (fun y hy => h y (List.mem_cons_of_mem x hy))
      simp [newListElems, hw, hrest, encValue_eq hw]

theorem NewList_all_ok : (xs : List Dyn) → (∀ x ∈ xs, ∃ w, NewValue x = .ok w) →
    NewList xs = .ok (xs.map encValue)
  | [], _ => rfl
  | x :: rest, h => by
      obtain ⟨w, hw⟩ := h x (List.mem_cons_self x rest)
      have hrest := NewList_all_ok rest (fun y hy => h y (List.mem_cons_of_mem x hy))
      simp [NewList, hw, hrest, encValue_eq hw]

mutual

theorem allOk_sound : (d : Dyn) → allOkB d = true → ∃ w, NewValue d = .ok w
  | .null, _ => ⟨_, rfl⟩
  | .bool _, _ => ⟨_, rfl⟩
  | .int _, _ => ⟨_, rfl⟩
  | .int32 _, _ => ⟨_, rfl⟩
  | .int64 _, _ => ⟨_, rfl⟩
  | .uint _, _ => ⟨_, rfl⟩
  | .uint32 _, _ => ⟨_, rfl⟩
  | .uint64 _, _ => ⟨_, rfl⟩
  | .float32 _, _ => ⟨_, rfl⟩
  | .float64 _, _ => ⟨_, rfl⟩
  | .str s, h => by
      have hs : utf8Valid s = true := by simpa [allOkB] using h
      exact ⟨NewStringValue s, by simp [NewValue, hs]⟩
  | .bytes _, _ => ⟨_, rfl⟩
  | .time _, _ => ⟨_, rfl⟩
  | .structOk fields, h => by
      obtain ⟨ds, hds⟩ := allOkEntries_sound fields (by simpa [allOkB] using h)
      exact ⟨NewStructValue (some ds), by simp [NewValue, hds]⟩
  | .structErr _, h => by simp [allOkB] at h
  | .map entries, h => by
      obtain ⟨ds, hds⟩ := allOkEntries_sound entries (by simpa [allOkB] using h)
      exact ⟨NewStructValue (some ds), by simp [NewValue, hds]⟩
  | .mapIntKey entries, h => by
      obtain ⟨ds, hds⟩ := allOkIntEntries_sound entries (by simpa [allOkB] using h)
      exact ⟨NewStructValue (some ds), by simp [NewValue, hds]⟩
  | .slice xs, h => by
      obtain ⟨vs, hvs⟩ := allOkList_sound xs (by simpa [allOkB] using h)
      exact ⟨NewListValue (some vs), by simp [NewValue, hvs]⟩
  | .namedScalar _, h => by simp [allOkB] at h
  | .other _, h => by simp [allOkB] at h

theorem allOkEntries_sound : (l : List (GoString × Dyn)) → allOkEntriesB l = true →
    ∃ ds, newStructEntries l = .ok ds
  | [], _ => ⟨[], rfl⟩
  | (k, v) :: rest, h => by
      rw [allOkEntriesB, Bool.and_eq_true, Bool.and_eq_true] at h
      obtain ⟨⟨h1, h2⟩, h3⟩ := h
      obtain ⟨w, hw⟩ := allOk_sound v h2
      obtain ⟨ds, hds⟩ := allOkEntries_sound rest h3
      exact ⟨(k, w) :: ds, by simp [newStructEntries, h1, hw, hds]⟩

theorem allOkIntEntries_sound : (l : List (Int × Dyn)) → allOkIntEntriesB l = true →
    ∃ ds, encodeIntMapEntries l = .ok ds
  | [], _ => ⟨[], rfl⟩
  | [(_, v)], h => by
      have h2 : allOkB v = true := by simpa [allOkIntEntriesB] using h
      obtain ⟨w, hw⟩ := allOk_sound v h2
      exact ⟨[(intValueKeyStr, w)],
        by simp [encodeIntMapEntries, utf8Valid_intValueKeyStr, hw]⟩
  | (_, v) :: r :: rs, h => by
      obtain ⟨ds, hds⟩ := allOkIntEntries_sound (r :: rs) (by simpa [allOkIntEntriesB] using h)
      exact ⟨ds, hds⟩

theorem allOkList_sound : (l : List Dyn) → allOkListB l = true →
    ∃ vs, newListElems l = .ok vs
  | [], _ => ⟨[], rfl⟩
  | x :: rest, h => by
      rw [allOkListB, Bool.and_eq_true] at h
      obtain ⟨h1, h2⟩ := h
      obtain ⟨w, hw⟩ := allOk_sound x h1
      obtain ⟨vs, hvs⟩ := allOkList_sound rest h2
      exact ⟨w :: vs, by simp [newListElems, hw, hvs]⟩

end

mutual

theorem noPanic_sound : (d : Dyn) → noPanicB d = true →
    (∃ w, NewValue d = .ok w) ∨ (∃ e, NewValue d = .err e)
  | .null, _ => .inl ⟨_, rfl⟩
  | .bool _, _ => .inl ⟨_, rfl⟩
  | .int _, _ => .inl ⟨_, rfl⟩
  | .int32 _, _ => .inl ⟨_, rfl⟩
  | .int64 _, _ => .inl ⟨_, rfl⟩
  | .uint _, _ => .inl ⟨_, rfl⟩
  | .uint32 _, _ => .inl ⟨_, rfl⟩
  | .uint64 _, _ => .inl ⟨_, rfl⟩
  | .float32 _, _ => .inl ⟨_, rfl⟩
  | .float64 _, _ => .inl ⟨_, rfl⟩
  | .str s, _ => by
      by_cases hs : utf8Valid s = true
      · exact .inl ⟨NewStringValue s, by simp [NewValue, hs]⟩
      · exact .inr ⟨.invalidUTF8 s, by simp [NewValue, hs]⟩
  | .bytes _, _ => .inl ⟨_, rfl⟩
  | .time _, _ => .inl ⟨_, rfl⟩
  | .structOk fields, h => by
      rcases noPanicEntries_sound fields (by simpa [noPanicB] using h) with ⟨ds, hds⟩ | ⟨e, he⟩
      · exact .inl ⟨NewStructValue (some ds), by simp [NewValue, hds]⟩
      · exact .inr ⟨GoErr.structWrap e, by simp [NewValue, he]⟩
  | .structErr _, _ => .inr ⟨_, rfl⟩
  | .map entries, h => by
      rcases noPanicEntries_sound entries (by simpa [noPanicB] using h) with ⟨ds, hds⟩ | ⟨e, he⟩
      · exact .inl ⟨NewStructValue (some ds), by simp [NewValue, hds]⟩
      · exact .inr ⟨GoErr.structWrap e, by simp [NewValue, he]⟩
  | .mapIntKey entries, h => by
      rcases noPanicIntEntries_sound entries (by simpa [noPanicB] using h) with ⟨ds, hds⟩ | ⟨e, he⟩
      · exact .inl ⟨NewStructValue (some ds), by simp [NewValue, hds]⟩
      · exact .inr ⟨GoErr.structWrap e, by simp [NewValue, he]⟩
  | .slice xs, h => by
      obtain ⟨vs, hvs⟩ := allOkList_sound xs (by simpa [noPanicB] using h)
      exact .inl ⟨NewListValue (some vs), by simp [NewValue, hvs]⟩
  | .namedScalar _, h => by simp [noPanicB] at h
  | .other _, _ => .inr ⟨_, rfl⟩

theorem noPanicEntries_sound : (l : List (GoString × Dyn)) → noPanicEntriesB l = true →
    (∃ ds, newStructEntries l = .ok ds) ∨ (∃ e, newStructEntries l = .err e)
  | [], _ => .inl ⟨[], rfl⟩
  | (k, v) :: rest, h => by
      rw [noPanicEntriesB, Bool.and_eq_true] at h
      obtain ⟨h1, h2⟩ := h
      by_cases hk : utf8Valid k = true
      · rcases noPanic_sound v h1 with ⟨w, hw⟩ | ⟨e, he⟩
        · rcases noPanicEntries_sound rest h2 with ⟨ds, hds⟩ | ⟨e, he⟩
          · exact .inl ⟨(k, w) :: ds, by simp [newStructEntries, hk, hw, hds]⟩
          · exact .inr ⟨e, by simp [newStructEntries, hk, hw, he]⟩
        · exact .inr ⟨e, by simp [newStructEntries, hk, he]⟩
      · exact .inr ⟨.invalidUTF8 k, by simp [newStructEntries, hk]⟩

theorem noPanicIntEntries_sound : (l : List (Int × Dyn)) → noPanicIntEntriesB l = true →
    (∃ ds, encodeIntMapEntries l = .ok ds) ∨ (∃ e, encodeIntMapEntries l = .err e)
  | [], _ => .inl ⟨[], rfl⟩
  | [(_, v)], h => by
      have h1 : noPanicB v = true := by simpa [noPanicIntEntriesB] using h
      rcases noPanic_sound v h1 with ⟨w, hw⟩ | ⟨e, he⟩
      · exact .inl ⟨[(intValueKeyStr, w)],
          by simp [encodeIntMapEntries, utf8Valid_intValueKeyStr, hw]⟩
      · exact .inr ⟨e, by simp [encodeIntMapEntries, utf8Valid_intValueKeyStr, he]⟩
  | (_, v) :: r :: rs, h => by
      rcases noPanicIntEntries_sound (r :: rs) (by simpa [noPanicIntEntriesB] using h) with
        ⟨ds, hds⟩ | ⟨e, he⟩
      · exact .inl ⟨ds, hds⟩
      · exact .inr ⟨e, he⟩

end

theorem encodeIntMapEntries_keys : (l : List (Int × Dyn)) →
    (∀ kv, l.getLast? = some kv → ∃ w, NewValue kv.2 = .ok w) →
    ∃ ds, encodeIntMapEntries l = .ok ds ∧ ∀ p ∈ ds, p.1 = intValueKeyStr
  | [], _ => ⟨[], rfl, by simp⟩
  | [(k, v)], h => by
      obtain ⟨w, hw⟩ := h (k, v) rfl
      exact ⟨[(intValueKeyStr, w)],
        by simp [encodeIntMapEntries, utf8Valid_intValueKeyStr, hw],
        by simp⟩
  | (_, v) :: r :: rs, h => by
      obtain ⟨ds, hds, hkeys⟩ := encodeIntMapEntries_keys (r :: rs)
        (fun kv hkv => h kv (by rw [List.getLast?_cons_cons]; exact hkv))
      exact ⟨ds, hds, hkeys⟩

theorem base64StdEncode_hi : base64StdEncode [104, 105] = [97, 71, 107, 61] := by decide

/-- C1: for every dynamic value that is null, a bool, a float64, or a
valid-UTF-8 string, decoding the result of encoding it returns the value
itself, except a NaN / positive-infinity / negative-infinity float, whose
round trip returns the corresponding string sentinel instead. -/
theorem c1_scalar_round_trip : (d : Dyn) → simpleScalar d = true →
    (match NewValue d with
     | .ok w => some (AsInterface w)
     | _ => none) =
    some (match d with
          | .float64 .nan => Dyn.str nanStr
          | .float64 .inf => Dyn.str infStr
          | .float64 .negInf => Dyn.str negInfStr
          | d0 => d0)
  | .null, _ => rfl
  | .bool _, _ => rfl
  | .float64 .nan, _ => rfl
  | .float64 .inf, _ => rfl
  | .float64 .negInf, _ => rfl
  | .float64 (.finite _), _ => rfl
  | .str s, h => by
      have hs : utf8Valid s = true := by simpa [simpleScalar] using h
      simp [NewValue, hs, NewStringValue, AsInterface]
  | .int _, h => Bool.noConfusion h
  | .int32 _, h => Bool.noConfusion h
  | .int64 _, h => Bool.noConfusion h
  | .uint _, h => Bool.noConfusion h
  | .uint32 _, h => Bool.noConfusion h
  | .uint64 _, h => Bool.noConfusion h
  | .float32 _, h => Bool.noConfusion h
  | .bytes _, h => Bool.noConfusion h
  | .time _, h => Bool.noConfusion h
  | .structOk _, h => Bool.noConfusion h
  | .structErr _, h => Bool.noConfusion h
  | .map _, h => Bool.noConfusion h
  | .mapIntKey _, h => Bool.noConfusion h
  | .slice _, h => Bool.noConfusion h
  | .namedScalar _, h => Bool.noConfusion h
  | .other _, h => Bool.noConfusion h

/-- Witness for C1 at the concrete input NaN: the round trip returns the
string sentinel. -/
theorem c1_scalar_round_trip_witness :
    (match NewValue (Dyn.float64 .nan) with
     | .ok w => some (AsInterface w)
     | _ => none) = some (Dyn.str nanStr) :=
  c1_scalar_round_trip (Dyn.float64 .nan) (by decide)

/-- C2 (code bug): a slice whose element at index 0 fails to encode (here a
value of runtime type int8, a kind the dispatch does not support) does not
yield the claimed indexed error return: the error-message construction
calls `reflect.Value.Field` on the slice value and panics. -/
theorem c2_slice_element_failure_panics :
    NewValue (.slice [Dyn.other int8TypeName]) = .panicked fieldOnSlicePanicMsg := rfl

/-- C3 (counterexample): a Struct variant holding a nil inner pointer does
not decode to nil/absent: `AsMap` on the nil pointer returns a freshly
allocated empty map, which is not Go nil. -/
theorem c3_nil_inner_pointer_counterexample :
    AsInterface (.structValue none) = Dyn.map [] ∧ Dyn.map [] ≠ Dyn.null :=
  ⟨rfl, fun heq => Dyn.noConfusion heq⟩

/-- C3 (amended): decoding is total and never fails — `AsInterface` returns
a value for every Union Value; an unset variant (nil Kind or nil variant
wrapper) and the Null variant decode to nil; but a variant holding a null
inner pointer decodes to the empty map (Struct), the empty slice (List),
or the Unix epoch instant (Timestamp), not to nil/absent. -/
theorem c3_decode_total_amended :
    (∀ v : Value, ∃ d : Dyn, AsInterface v = d) ∧
    AsInterface .unset = Dyn.null ∧
    AsInterface .nullValue = Dyn.null ∧
    AsInterface (.structValue none) = Dyn.map [] ∧
    AsInterface (.listValue none) = Dyn.slice [] ∧
    AsInterface (.timestampValue none) = Dyn.time ⟨0, 0⟩ :=
  ⟨fun v => ⟨AsInterface v, rfl⟩, rfl, rfl, rfl, rfl, rfl⟩

/-- C4 (counterexample): `NewValue` does not avoid panicking on every
input: a value of a defined (named) type with underlying kind int panics
on the failed type assertion `v.(int)` instead of returning an error. -/
theorem c4_never_panics_counterexample :
    NewValue (.namedScalar .int) = .panicked assertPanicMsg := rfl

/-- C4 (amended): for every input containing no defined named-scalar value
and no slice with a failing element — the two panic sources — `NewValue`
returns either a Value or a typed error; and any input whose runtime kind
matches none of the recognized shapes yields the invalid-type error naming
the offending runtime type, not a crash or a best-effort result. -/
theorem c4_totality_amended (d : Dyn) (tn : String) (h : noPanicB d = true) :
    ((∃ w, NewValue d = .ok w) ∨ (∃ e, NewValue d = .err e)) ∧
    NewValue (.other tn) = .err (.invalidType tn) :=
  ⟨noPanic_sound d h, rfl⟩

/-- Witness for the amended C4 at a concrete valid string and a concrete
unsupported runtime type. -/
theorem c4_totality_amended_witness :
    ((∃ w, NewValue (.str [104]) = .ok w) ∨ (∃ e, NewValue (.str [104]) = .err e)) ∧
    NewValue (.other chanTypeName) = .err (.invalidType chanTypeName) :=
  c4_totality_amended (.str [104]) chanTypeName (by decide)

/-- C5 (code bug): a non-UTF-8 string fails with the invalid-encoding
error carrying the offending string, and a mapping with a non-UTF-8 key
fails with that error (wrapped once per enclosing map) while the nesting
passes through maps only — but the same mapping nested under a slice
element makes `NewValue` panic (`reflect.Value.Field` on the slice value)
instead of returning the invalid-encoding error. -/
theorem c5_invalid_utf8_failures :
    NewValue (.str [255]) = .err (.invalidUTF8 [255]) ∧
    NewValue (.map [([255], Dyn.null)]) = .err (.structWrap (.invalidUTF8 [255])) ∧
    NewValue (.map [([104], Dyn.map [([255], Dyn.null)])]) =
      .err (.structWrap (.structWrap (.invalidUTF8 [255]))) ∧
    NewValue (.slice [Dyn.map [([255], Dyn.null)]]) = .panicked fieldOnSlicePanicMsg :=
  ⟨rfl, rfl, rfl, rfl⟩

/-- C6: for every byte sequence, `NewValue` succeeds with a String variant
whose text is the standard base64 encoding of the bytes, and decoding that
Value returns the base64 text unchanged. -/
theorem c6_bytes_base64 (bs : List Nat) :
    NewValue (.bytes bs) = .ok (NewStringValue (base64StdEncode bs)) ∧
    AsInterface (NewStringValue (base64StdEncode bs)) = Dyn.str (base64StdEncode bs) :=
  ⟨rfl, rfl⟩

/-- C7: decoding a Number variant returns the float64 unchanged when
finite; NaN decodes to the text NaN, positive infinity to Infinity,
negative infinity to -Infinity. -/
theorem c7_number_decode :
    (∀ q : ℚ, AsInterface (.numberValue (.finite q)) = Dyn.float64 (.finite q)) ∧
    AsInterface (.numberValue .nan) = Dyn.str nanStr ∧
    AsInterface (.numberValue .inf) = Dyn.str infStr ∧
    AsInterface (.numberValue .negInf) = Dyn.str negInfStr :=
  ⟨fun _ => rfl, rfl, rfl, rfl⟩

/-- C8: for a slice whose elements all encode successfully, the encoding
is the ListValue of the elementwise encodings in order (both via the
`NewValue` slice branch and via `NewList`), and decoding it (both via
`AsInterface` and via `AsSlice`) yields the elementwise
decode-of-the-encode in the same order and of the same length. -/
theorem c8_list_order (xs : List Dyn) (h : ∀ x ∈ xs, ∃ w, NewValue x = .ok w) :
    NewValue (.slice xs) = .ok (NewListValue (some (xs.map encValue))) ∧
    NewList xs = .ok (xs.map encValue) ∧
    AsInterface (NewListValue (some (xs.map encValue))) = Dyn.slice (xs.map encDecoded) ∧
    AsSlice (some (xs.map encValue)) = xs.map encDecoded ∧
    (xs.map encDecoded).length = xs.length := by
  have h1 := newListElems_all_ok xs h
  refine ⟨by simp [NewValue, h1], NewList_all_ok xs h, ?_, ?_, by simp⟩
  · simp [NewListValue, AsInterface, asSliceElems_eq_map, List.map_map, Function.comp,
      encDecoded]
  · simp [AsSlice, asSliceElems_eq_map, List.map_map, Function.comp, encDecoded]

/-- Witness for C8 at the concrete two-element slice of a bool and null. -/
theorem c8_list_order_witness :
    NewValue (.slice [Dyn.bool true, Dyn.null]) =
      .ok (NewListValue (some ([Dyn.bool true, Dyn.null].map encValue))) ∧
    NewList [Dyn.bool true, Dyn.null] = .ok ([Dyn.bool true, Dyn.null].map encValue) ∧
    AsInterface (NewListValue (some ([Dyn.bool true, Dyn.null].map encValue))) =
      Dyn.slice ([Dyn.bool true, Dyn.null].map encDecoded) ∧
    AsSlice (some ([Dyn.bool true, Dyn.null].map encValue)) =
      [Dyn.bool true, Dyn.null].map encDecoded ∧
    ([Dyn.bool true, Dyn.null].map encDecoded).length = [Dyn.bool true, Dyn.null].length :=
  c8_list_order [Dyn.bool true, Dyn.null]
    (by
      intro x hx
      simp only [List.mem_cons, List.not_mem_nil, or_false] at hx
      rcases hx with rfl | rfl
      · exact ⟨NewBoolValue true, rfl⟩
      · exact ⟨NewNullValue, rfl⟩)

/-- C9: an int-keyed mapping is not rejected: provided the value written
last into the rebuilt map encodes, `NewValue` returns a Struct variant
every key of which is the generic `reflect.Value.String` coercion of an
int key, the fixed text intValueKeyStr. -/
theorem c9_int_key_map (entries : List (Int × Dyn))
    (h : ∀ kv, entries.getLast? = some kv → ∃ w, NewValue kv.2 = .ok w) :
    ∃ data : StructData,
      NewValue (.mapIntKey entries) = .ok (NewStructValue (some data)) ∧
      ∀ p ∈ data, p.1 = intValueKeyStr := by
  obtain ⟨ds, hds, hkeys⟩ := encodeIntMapEntries_keys entries h
  exact ⟨ds, by simp [NewValue, hds], hkeys⟩

/-- Witness for C9 at a concrete two-entry int-keyed map. -/
theorem c9_int_key_map_witness :
    ∃ data : StructData,
      NewValue (.mapIntKey [(1, Dyn.null), (2, Dyn.bool true)]) =
        .ok (NewStructValue (some data)) ∧
      ∀ p ∈ data, p.1 = intValueKeyStr :=
  c9_int_key_map [(1, Dyn.null), (2, Dyn.bool true)]
    (by
      intro kv hkv
      injection hkv with hkv
      subst hkv
      exact ⟨NewBoolValue true, rfl⟩)

/-- C10: `NewValue` dispatches on the reflect Kind but converts by direct
type assertion to the predeclared type, so a value of a defined (named)
type with underlying kind bool, int, int32, int64, uint, uint32, uint64,
float32, float64, or string panics on the failed assertion instead of
returning an error. -/
theorem c10_named_scalar_panics (k : ScalarKind) :
    NewValue (.namedScalar k) = .panicked assertPanicMsg := rfl
